import Mathlib

/-!
# Verification of the OCF Elexon generation pipeline

Shallow embedding of the repository's core: the SQLite persistence layer
(`src/ocf_pipeline/storage.py`), the remote fetch client
(`src/ocf_pipeline/elexon_api.py`), the window chunking loops
(`src/ocf_pipeline/elexon_data.py` `fetch_year`, and
`src/streamlit_app.py` `fetch_large_date_range`).

Dates are modelled as integer day numbers: every datetime the core
manipulates is a midnight datetime, and the only operations used are
`+ timedelta(days=k)`, `min`, `<=` and `(end - start).days`, all of which
are exact day arithmetic.

SQLite specifics modelled here, following the semantics of the `sqlite3`
module and SQLite itself:
* `INSERT OR REPLACE` on a table with `PRIMARY KEY (psr_type, start_time)`
  deletes the conflicting row (if any) and inserts the new row with a fresh
  maximal rowid, i.e. at the end of the table in rowid order.
* `executemany` executes the statement once per parameter set, in order;
  a parameter set missing a named binding raises after the earlier sets
  have already executed.  The surrounding implicit transaction is *not*
  rolled back on such an error: the connection keeps its open transaction,
  so the partially applied rows stay visible to queries on the same
  connection, and only an explicit `commit` makes them durable.
* `TEXT` comparison (`<=`, `>=`, `ORDER BY`) uses the BINARY collation,
  byte-wise comparison of the UTF-8 encodings, which coincides with
  lexicographic comparison of the character sequences.
-/

namespace OCF

/-- One generation sample, the decoded form of one element of the API's
`data` array, matching the columns of the `generation` table
(`storage.py`, `initialize_db`). `quantity` is the REAL column; it is only
carried through, never computed with, so it is embedded as a rational. -/
structure Record where
  publishTime : String
  businessType : String
  psrType : String
  quantity : Rat
  startTime : String
  settlementDate : String
  settlementPeriod : Int
deriving DecidableEq

/-- A raw element of the JSON `data` array, as passed to `executemany` in
`store_records`: a dict that may be missing any of the named parameters.
A missing field makes the named-parameter binding fail. -/
structure RawRow where
  publishTime : Option String
  businessType : Option String
  psrType : Option String
  quantity : Option Rat
  startTime : Option String
  settlementDate : Option String
  settlementPeriod : Option Int
deriving DecidableEq

/-- Named-parameter binding of one `executemany` parameter set: succeeds
iff every named parameter of the INSERT statement is present. -/
def bindRow (row : RawRow) : Option Record :=
  match row.publishTime, row.businessType, row.psrType, row.quantity,
      row.startTime, row.settlementDate, row.settlementPeriod with
  | some pt, some bt, some ps, some q, some st, some sd, some sp =>
      some ⟨pt, bt, ps, q, st, sd, sp⟩
  | _, _, _, _, _, _, _ => none

/-- The primary key of the `generation` table: `(psr_type, start_time)`. -/
abbrev Key := String × String

/-- The key of a record. -/
def key (r : Record) : Key := (r.psrType, r.startTime)

/-- `INSERT OR REPLACE` of one row into the table, the table being the
list of rows in rowid order: the row with a conflicting primary key (if
any) is deleted and the new row is inserted with a fresh maximal rowid,
i.e. at the end. -/
def upsert (s : List Record) (r : Record) : List Record :=
  s.filter (fun x => !(key x == key r)) ++ [r]

/-- `executemany` of the `INSERT OR REPLACE` over a list of already-bound
rows, in order. -/
def upsertAll (s : List Record) (rs : List Record) : List Record :=
  rs.foldl upsert s

/-- A `sqlite3` connection: `committed` is the durable table content,
`current` is the table content as seen through this connection (shared
with `committed` except for the connection's open transaction). -/
structure Conn where
  committed : List Record
  current : List Record
deriving DecidableEq

/-- `initialize_db` (`storage.py` lines 7-12): connect to the database
file (holding table content `db`, `[]` for a fresh file) and create the
`generation` table if it does not exist. -/
def initialize_db (db : List Record) : Conn := ⟨db, db⟩

/-- The one store failure modelled: a parameter set of `executemany` is
missing a named binding (`sqlite3.ProgrammingError`). -/
inductive StoreErr where
  | bindError
deriving DecidableEq

/-- The row-by-row execution of `executemany` inside `store_records`:
each parameter set is bound and, on success, applied by
`INSERT OR REPLACE`; the first set that fails to bind raises, keeping the
rows already applied (the transaction is not rolled back). Returns the
table as the connection now sees it, and whether every set bound. -/
def execManyGo (cur : List Record) : List RawRow → List Record × Bool
  | [] => (cur, true)
  | row :: rest =>
    match bindRow row with
    | none => (cur, false)
    | some r => execManyGo (upsert cur r) rest

/-- `store_records` (`storage.py` lines 15-20): `executemany` the
`INSERT OR REPLACE` over the batch, then `conn.commit()`.  If a row fails
to bind, the exception propagates before the commit: the connection keeps
the partially applied batch in its open transaction and the committed
state is unchanged. -/
def store_records (conn : Conn) (rows : List RawRow) : Conn × Except StoreErr Unit :=
  match execManyGo conn.current rows with
  | (cur, true) => (⟨cur, cur⟩, .ok ())
  | (cur, false) => (⟨conn.committed, cur⟩, .error .bindError)

/-- SQLite BINARY collation on TEXT values: lexicographic comparison of
the character sequences (`a <= b`). -/
def charListLe : List Char → List Char → Bool
  | [], _ => true
  | _ :: _, [] => false
  | a :: as, b :: bs => decide (a < b) || (decide (a = b) && charListLe as bs)

/-- `start_time <= ?` and friends, as SQLite compares two TEXT values. -/
def sqlLe (s t : String) : Bool := charListLe s.data t.data

/-- The projection `SELECT start_time, psr_type, quantity` of
`load_dataframe`. -/
structure QueryRow where
  start_time : String
  psr_type : String
  quantity : Rat
deriving DecidableEq

/-- Project a table row onto the selected columns. -/
def proj (r : Record) : QueryRow := ⟨r.startTime, r.psrType, r.quantity⟩

/-- The WHERE clause built by `load_dataframe` (`storage.py` lines
29-40): a clause is added for a filter only when the Python value is
truthy, so `None` and the empty string both add no clause; a present
clause compares `start_time` as TEXT and `psr_type` by exact match. -/
def whereClause (start? end? psr? : Option String) (r : Record) : Bool :=
  (match start? with
   | none => true
   | some s => s == "" || sqlLe s r.startTime)
  && (match end? with
   | none => true
   | some e => e == "" || sqlLe r.startTime e)
  && (match psr? with
   | none => true
   | some t => t == "" || r.psrType == t)

/-- `ORDER BY start_time` as a relation on the selected rows. -/
def qle (a b : QueryRow) : Prop := sqlLe a.start_time b.start_time = true

instance : DecidableRel qle := fun a b => by
  unfold qle; infer_instance

/-- `load_dataframe` (`storage.py` lines 23-43): select the three
columns from the rows the connection sees, apply the WHERE clause, and
order ascending by `start_time` (ties in `start_time` are left in an
unspecified order by SQL, here resolved by a stable sort).  The
`parse_dates` conversion of the result is presentation only. -/
def load_dataframe (conn : Conn) (start? end? psr? : Option String) : List QueryRow :=
  List.insertionSort qle ((conn.current.filter (whereClause start? end? psr?)).map proj)

/-- Failure kinds of one remote request, as distinguished by the spec:
connection-level failure (`requests` raising), a non-success HTTP status
(`raise_for_status`), or a payload missing the expected `data` field. -/
inductive RemoteErr where
  | transport
  | remoteStatus
  | decodeFailure
deriving DecidableEq

/-- Everything `fetch_generation_data` or `store_records` can raise. -/
inductive Err where
  | windowTooLarge
  | remote (e : RemoteErr)
  | store (e : StoreErr)
deriving DecidableEq

/-- The remote service plus transport and decoding, abstracted as a
capability: given the `from`/`to` day numbers of the request, either the
decoded `data` array or a failure. -/
def Oracle := Int → Int → Except RemoteErr (List RawRow)

/-- `fetch_generation_data` (`elexon_api.py` lines 7-18): if the window
spans more than 6 days, raise `ValueError` before any request is made;
otherwise perform the request.  The second component records whether a
request was sent to the remote service. -/
def fetch_generation_data (oracle : Oracle) (start fin : Int) :
    Except Err (List RawRow) × Bool :=
  if fin - start > 6 then (.error .windowTooLarge, false)
  else ((oracle start fin).mapError .remote, true)

/-- The window sequence emitted by the chunking loop shared by
`fetch_year` (`elexon_data.py` lines 12-18), `fetch_range_command`
(`main.py` lines 48-57) and `fetch_large_date_range`
(`streamlit_app.py` lines 142-195): while `current <= end`, emit
`[current, min(current + 6 days, end)]` and restart from one day past the
emitted end. -/
def chunks (current fin : Int) : List (Int × Int) :=
  if _h : current ≤ fin then
    (current, min (current + 6) fin) :: chunks (min (current + 6) fin + 1) fin
  else []
termination_by (fin + 1 - current).toNat
decreasing_by all_goals omega

/-- Leap days strictly before January 1 of year `y`, proleptic Gregorian. -/
def leapsBefore (y : Int) : Int := (y - 1) / 4 - (y - 1) / 100 + (y - 1) / 400

/-- Day number of `datetime(y, 1, 1)`: days are counted so that
differences of day numbers agree with `(a - b).days` of `datetime`. -/
def jan1 (y : Int) : Int := 365 * (y - 1) + leapsBefore y

/-- Day number of `datetime(y, 12, 31)`, the day before January 1 of the
next year. -/
def dec31 (y : Int) : Int := jan1 (y + 1) - 1

/-- The outcome of a `fetch_year` run: the connection (with whatever the
already-committed chunks stored), the status (`.error` when an exception
propagated out of the loop), and the log of windows passed to
`fetch_generation_data`. -/
structure YearRun where
  conn : Conn
  status : Except Err Unit
  calls : List (Int × Int)

/-- The `while current <= end` loop of `fetch_year` (`elexon_data.py`
lines 12-18): fetch the chunk, store it when non-empty, advance.  There
is no try/except around the body, so the first failing fetch or store
aborts the remaining chunks.  `calls` logs each window passed to the
fetch client. -/
def fetchYearGo (oracle : Oracle) (conn : Conn) (current fin : Int)
    (calls : List (Int × Int)) : YearRun :=
  if _h : current ≤ fin then
    match (fetch_generation_data oracle current (min (current + 6) fin)).1 with
    | .error e => ⟨conn, .error e, calls ++ [(current, min (current + 6) fin)]⟩
    | .ok data =>
      if data.isEmpty then
        fetchYearGo oracle conn (min (current + 6) fin + 1) fin
          (calls ++ [(current, min (current + 6) fin)])
      else
        match store_records conn data with
        | (conn2, .ok _) =>
          fetchYearGo oracle conn2 (min (current + 6) fin + 1) fin
            (calls ++ [(current, min (current + 6) fin)])
        | (conn2, .error se) =>
          ⟨conn2, .error (.store se), calls ++ [(current, min (current + 6) fin)]⟩
  else ⟨conn, .ok (), calls⟩
termination_by (fin + 1 - current).toNat
decreasing_by all_goals omega

/-- `fetch_year` (`elexon_data.py` lines 7-19): initialize the database
and run the chunk loop from January 1 to December 31 of `year`. `db` is
the prior content of the database file. -/
def fetch_year (oracle : Oracle) (year : Int) (db : List Record) : YearRun :=
  fetchYearGo oracle (initialize_db db) (jan1 year) (dec31 year) []

/-- The observable outcome of `fetch_large_date_range`: the connection,
the accumulated `total_records`, and the windows for which a
`status_container.warning` was shown (each warning is transient UI state,
overwritten by the next status update; it is not part of the return
value). -/
structure LargeRun where
  conn : Conn
  total : Nat
  warnings : List (Int × Int)

/-- The `while current <= end_dt` loop of `fetch_large_date_range`
(`streamlit_app.py` lines 142-195): each chunk's fetch *and* store are
wrapped in a try/except, so a failing chunk only emits a warning and the
loop continues with the next chunk.  The progress bar and the
`time.sleep(0.2)` inter-chunk delay carry no data and are not modelled. -/
def fetchLargeGo (oracle : Oracle) (conn : Conn) (current fin : Int)
    (total : Nat) (warnings : List (Int × Int)) : LargeRun :=
  if _h : current ≤ fin then
    match (fetch_generation_data oracle current (min (current + 6) fin)).1 with
    | .error _ =>
      fetchLargeGo oracle conn (min (current + 6) fin + 1) fin total
        (warnings ++ [(current, min (current + 6) fin)])
    | .ok data =>
      if data.isEmpty then
        fetchLargeGo oracle conn (min (current + 6) fin + 1) fin total warnings
      else
        match store_records conn data with
        | (conn2, .ok _) =>
          fetchLargeGo oracle conn2 (min (current + 6) fin + 1) fin
            (total + data.length) warnings
        | (conn2, .error _) =>
          fetchLargeGo oracle conn2 (min (current + 6) fin + 1) fin total
            (warnings ++ [(current, min (current + 6) fin)])
  else ⟨conn, total, warnings⟩
termination_by (fin + 1 - current).toNat
decreasing_by all_goals omega

/-- `fetch_large_date_range` (`streamlit_app.py` lines 142-195): run the
chunked loop over a fresh connection and return `(True, message)` with
the total record count — the returned pair reports success whether or not
any chunk failed, and carries no list of failed windows. -/
def fetch_large_date_range (oracle : Oracle) (start fin : Int) (db : List Record) :
    LargeRun × (Bool × Nat) :=
  let run := fetchLargeGo oracle (initialize_db db) start fin 0 []
  (run, (true, run.total))

/-- A whole sequence of `store_records` batches against one connection,
as the orchestrators perform them. -/
def runBatches (conn : Conn) (bs : List (List RawRow)) : Conn :=
  bs.foldl (fun c b => (store_records c b).1) conn

/-- The filter predicate stated by the spec for `query(start?, end?,
technology?)` (spec §4.3): the supplied bounds are inclusive on
`startTime`, a supplied technology matches exactly, and an absent filter
leaves its dimension unbounded.  This is the spec's wording, to be
compared with `whereClause`, the code's. -/
def specWhere (start? end? psr? : Option String) (r : Record) : Bool :=
  (match start? with
   | none => true
   | some s => sqlLe s r.startTime)
  && (match end? with
   | none => true
   | some e => sqlLe r.startTime e)
  && (match psr? with
   | none => true
   | some t => r.psrType == t)

/-! ## Properties of the TEXT comparison -/

theorem charListLe_cons (a b : Char) (as bs : List Char) :
    charListLe (a :: as) (b :: bs) = true ↔ a < b ∨ (a = b ∧ charListLe as bs = true) := by
  simp [charListLe]

theorem charListLe_refl (l : List Char) : charListLe l l = true := by
  induction l with
  | nil => rfl
  | cons a as ih => simp [charListLe, ih]

theorem charListLe_total (a b : List Char) :
    charListLe a b = true ∨ charListLe b a = true := by
  induction a generalizing b with
  | nil => left; rfl
  | cons x xs ih =>
    cases b with
    | nil => right; rfl
    | cons y ys =>
      rcases lt_trichotomy x y with h | h | h
      · left; rw [charListLe_cons]; exact Or.inl h
      · subst h
        rcases ih ys with h' | h'
        · left; rw [charListLe_cons]; exact Or.inr ⟨rfl, h'⟩
        · right; rw [charListLe_cons]; exact Or.inr ⟨rfl, h'⟩
      · right; rw [charListLe_cons]; exact Or.inl h

theorem charListLe_trans (a b c : List Char) (hab : charListLe a b = true)
    (hbc : charListLe b c = true) : charListLe a c = true := by
  induction a generalizing b c with
  | nil => rfl
  | cons x xs ih =>
    cases b with
    | nil => simp [charListLe] at hab
    | cons y ys =>
      cases c with
      | nil => simp [charListLe] at hbc
      | cons z zs =>
        rw [charListLe_cons] at hab hbc ⊢
        rcases hab with h1 | ⟨e1, h1⟩ <;> rcases hbc with h2 | ⟨e2, h2⟩
        · exact Or.inl (lt_trans h1 h2)
        · exact Or.inl (e2 ▸ h1)
        · exact Or.inl (e1 ▸ h2)
        · exact Or.inr ⟨e1.trans e2, ih ys zs h1 h2⟩

theorem charListLe_append_false (l t : List Char) (ht : t ≠ []) :
    charListLe (l ++ t) l = false := by
  induction l with
  | nil =>
    cases t with
    | nil => exact absurd rfl ht
    | cons c cs => rfl
  | cons x xs ih => simp [charListLe, ih]

/-- A TEXT value strictly extended on the right compares strictly greater:
`u ++ v <= u` fails whenever `v` is non-empty. -/
theorem sqlLe_append_false (u v : String) (hv : v ≠ "") :
    sqlLe (u ++ v) u = false := by
  have hd : v.data ≠ [] := by
    intro h
    exact hv (String.ext (by simpa using h))
  unfold sqlLe
  rw [String.data_append]
  exact charListLe_append_false u.data v.data hd

/-! ## Properties of the upsert -/

/-- Is there already a row with key `k` among `rs`? -/
def keyIn (k : Key) (rs : List Record) : Bool := rs.any (fun x => k == key x)

/-- For each key of `rs`, the last row of `rs` carrying it, in order of
last occurrence: the rows that survive upserting all of `rs`. -/
def dedupLast : List Record → List Record
  | [] => []
  | r :: rs => if keyIn (key r) rs then dedupLast rs else r :: dedupLast rs

theorem upsertAll_nil (s : List Record) : upsertAll s [] = s := rfl

theorem upsertAll_cons (s : List Record) (r : Record) (rs : List Record) :
    upsertAll s (r :: rs) = upsertAll (upsert s r) rs := rfl

theorem keyIn_cons (k : Key) (r : Record) (rs : List Record) :
    keyIn k (r :: rs) = ((k == key r) || keyIn k rs) := by
  simp [keyIn]

/-- Closed form of upserting a whole batch: the rows whose keys the batch
does not touch stay in place, and the batch's rows follow, deduplicated to
the last occurrence of each key. -/
theorem upsertAll_closed (rs : List Record) : ∀ s : List Record,
    upsertAll s rs = s.filter (fun x => !(keyIn (key x) rs)) ++ dedupLast rs := by
  induction rs with
  | nil =>
    intro s
    simp [upsertAll, dedupLast, keyIn]
  | cons r rs ih =>
    intro s
    rw [upsertAll_cons, ih (upsert s r)]
    unfold upsert
    rw [List.filter_append, List.filter_filter]
    have hpt : ∀ x : Record,
        ((!(keyIn (key x) rs)) && !(key x == key r)) = !(keyIn (key x) (r :: rs)) := by
      intro x
      rw [keyIn_cons]
      cases h1 : (key x == key r) <;> cases h2 : keyIn (key x) rs <;> simp [h1, h2]
    rw [List.filter_congr (fun x _ => hpt x), List.append_assoc]
    congr 1
    by_cases hk : keyIn (key r) rs
    · simp [dedupLast, hk, List.filter_cons]
    · simp [dedupLast, hk, List.filter_cons]

theorem dedupLast_keyIn (rs : List Record) (x : Record) (hx : x ∈ dedupLast rs) :
    keyIn (key x) rs = true := by
  induction rs with
  | nil => simp [dedupLast] at hx
  | cons r rs ih =>
    rw [keyIn_cons]
    unfold dedupLast at hx
    by_cases hk : keyIn (key r) rs = true
    · simp only [hk, if_true] at hx
      simp [ih hx]
    · simp only [Bool.not_eq_true] at hk
      simp only [hk, if_false] at hx
      rcases List.mem_cons.mp hx with h | h
      · subst h; simp
      · simp [ih h]

/-- Replaying a batch over a store that already absorbed it changes
nothing: the foundation of the idempotence property. -/
theorem upsertAll_idem (s : List Record) (rs : List Record) :
    upsertAll (upsertAll s rs) rs = upsertAll s rs := by
  rw [upsertAll_closed rs s, upsertAll_closed rs]
  rw [List.filter_append, List.filter_filter]
  have h1 : ∀ x : Record,
      ((!(keyIn (key x) rs)) && !(keyIn (key x) rs)) = !(keyIn (key x) rs) := by
    intro x; cases h : keyIn (key x) rs <;> simp [h]
  rw [List.filter_congr (fun x _ => h1 x)]
  have h2 : (dedupLast rs).filter (fun x => !(keyIn (key x) rs)) = [] := by
    rw [List.filter_eq_nil_iff]
    intro x hx
    simp [dedupLast_keyIn rs x hx]
  rw [h2, List.append_nil]

theorem keys_nodup_upsert (s : List Record) (r : Record)
    (h : (s.map key).Nodup) : ((upsert s r).map key).Nodup := by
  unfold upsert
  rw [List.map_append]
  apply List.Nodup.append
  · exact ((List.filter_sublist s).map key).nodup h
  · simp
  · intro k hk hk'
    simp only [List.map_cons, List.map_nil, List.mem_singleton] at hk'
    subst hk'
    rcases List.mem_map.mp hk with ⟨x, hx, hkx⟩
    rcases List.mem_filter.mp hx with ⟨_, hxr⟩
    simp only [Bool.not_eq_eq_eq_not, Bool.not_true, beq_eq_false_iff_ne, ne_eq] at hxr
    exact hxr hkx

theorem keys_nodup_upsertAll (rs : List Record) : ∀ s : List Record,
    (s.map key).Nodup → ((upsertAll s rs).map key).Nodup := by
  induction rs with
  | nil => intro s h; exact h
  | cons r rs ih =>
    intro s h
    rw [upsertAll_cons]
    exact ih (upsert s r) (keys_nodup_upsert s r h)

/-- After upserting `r`, the rows carrying `r`'s key are exactly `[r]`:
the old row is replaced in full and no duplicate is left. -/
theorem upsert_filter_key (s : List Record) (r : Record) :
    (upsert s r).filter (fun y => key y == key r) = [r] := by
  unfold upsert
  rw [List.filter_append]
  have h1 : List.filter (fun y => key y == key r) (List.filter (fun x => !(key x == key r)) s) = [] := by
    rw [List.filter_filter, List.filter_eq_nil_iff]
    intro x _
    cases h : (key x == key r) <;> simp [h]
  rw [h1]
  simp [List.filter]

/-! ## Properties of store_records -/

/-- `executemany` in closed form: the table absorbs the longest prefix of
rows that bind, and the success flag says whether every row bound. -/
theorem execManyGo_eq (rows : List RawRow) : ∀ cur : List Record,
    execManyGo cur rows =
      (upsertAll cur ((rows.takeWhile fun row => (bindRow row).isSome).filterMap bindRow),
       rows.all fun row => (bindRow row).isSome) := by
  induction rows with
  | nil => intro cur; simp [execManyGo, upsertAll]
  | cons row rest ih =>
    intro cur
    cases hb : bindRow row with
    | none =>
      simp [execManyGo, hb, List.takeWhile_cons, List.all_cons, upsertAll]
    | some r =>
      simp only [execManyGo, hb, ih (upsert cur r), List.takeWhile_cons, List.all_cons]
      simp [hb, upsertAll_cons]

theorem store_records_ok (conn : Conn) (rows : List RawRow)
    (h : ∀ row ∈ rows, (bindRow row).isSome) :
    store_records conn rows =
      (⟨upsertAll conn.current (rows.filterMap bindRow),
        upsertAll conn.current (rows.filterMap bindRow)⟩, .ok ()) := by
  have hall : (rows.all fun row => (bindRow row).isSome) = true := by
    rw [List.all_eq_true]; exact h
  have htw : (rows.takeWhile fun row => (bindRow row).isSome) = rows :=
    List.takeWhile_eq_self_iff.mpr h
  rw [store_records, execManyGo_eq, hall, htw]

/-- Re-running the same batch leaves the connection exactly where the
first run left it, whether or not the batch binds in full. -/
theorem store_records_fst_idem (conn : Conn) (rows : List RawRow) :
    (store_records (store_records conn rows).1 rows).1 = (store_records conn rows).1 := by
  cases hall : (rows.all fun row => (bindRow row).isSome) with
  | true =>
    rw [store_records, execManyGo_eq, hall]
    rw [store_records, execManyGo_eq, hall]
    simp [upsertAll_idem]
  | false =>
    rw [store_records, execManyGo_eq, hall]
    rw [store_records, execManyGo_eq, hall]
    simp [upsertAll_idem]

/-! ## Properties of load_dataframe -/

instance : IsTotal QueryRow qle :=
  ⟨fun a b => charListLe_total a.start_time.data b.start_time.data⟩

instance : IsTrans QueryRow qle :=
  ⟨fun a b c => charListLe_trans a.start_time.data b.start_time.data c.start_time.data⟩

theorem load_dataframe_sorted (conn : Conn) (start? end? psr? : Option String) :
    List.Sorted qle (load_dataframe conn start? end? psr?) :=
  List.sorted_insertionSort qle _

theorem load_dataframe_perm (conn : Conn) (start? end? psr? : Option String) :
    (load_dataframe conn start? end? psr?).Perm
      ((conn.current.filter (whereClause start? end? psr?)).map proj) :=
  List.perm_insertionSort qle _

theorem mem_load_dataframe (conn : Conn) (start? end? psr? : Option String) (q : QueryRow) :
    q ∈ load_dataframe conn start? end? psr? ↔
      ∃ r ∈ conn.current, whereClause start? end? psr? r = true ∧ proj r = q := by
  rw [(load_dataframe_perm conn start? end? psr?).mem_iff]
  constructor
  · intro h
    rcases List.mem_map.mp h with ⟨r, hr, hq⟩
    rcases List.mem_filter.mp hr with ⟨hmem, hcl⟩
    exact ⟨r, hmem, hcl, hq⟩
  · rintro ⟨r, hmem, hcl, hq⟩
    exact List.mem_map.mpr ⟨r, List.mem_filter.mpr ⟨hmem, hcl⟩, hq⟩

/-! ## Properties of the chunking loop -/

theorem chunks_pos (c fin : Int) (h : c ≤ fin) :
    chunks c fin = (c, min (c + 6) fin) :: chunks (min (c + 6) fin + 1) fin := by
  rw [chunks]
  simp [h]

theorem chunks_neg (c fin : Int) (h : ¬ c ≤ fin) : chunks c fin = [] := by
  rw [chunks]
  simp [h]

theorem chunks_mem (c fin : Int) : ∀ w ∈ chunks c fin,
    c ≤ w.1 ∧ w.1 ≤ w.2 ∧ w.2 ≤ fin ∧ w.2 - w.1 ≤ 6 := by
  by_cases h : c ≤ fin
  · rw [chunks_pos c fin h]
    rintro w hw
    rcases List.mem_cons.mp hw with hw | hw
    · subst hw
      refine ⟨le_refl _, ?_, ?_, ?_⟩ <;> simp <;> omega
    · have ih := chunks_mem (min (c + 6) fin + 1) fin w hw
      refine ⟨?_, ih.2.1, ih.2.2.1, ih.2.2.2⟩
      have := ih.1
      omega
  · rw [chunks_neg c fin h]
    intro w hw
    simp at hw
termination_by (fin + 1 - c).toNat
decreasing_by all_goals omega

theorem chunks_getLast (c fin : Int) (h : c ≤ fin) :
    (chunks c fin).getLast?.map Prod.snd = some fin := by
  rw [chunks_pos c fin h]
  by_cases h2 : min (c + 6) fin + 1 ≤ fin
  · have ih := chunks_getLast (min (c + 6) fin + 1) fin h2
    cases htl : chunks (min (c + 6) fin + 1) fin with
    | nil => rw [htl] at ih; simp at ih
    | cons x xs =>
      rw [htl] at ih
      rw [List.getLast?_cons_cons]
      exact ih
  · rw [chunks_neg _ _ h2]
    simp
    omega
termination_by (fin + 1 - c).toNat
decreasing_by all_goals omega

theorem chunks_chain (c fin : Int) :
    List.Chain' (fun a b : Int × Int => b.1 = a.2 + 1) (chunks c fin) := by
  by_cases h : c ≤ fin
  · rw [chunks_pos c fin h]
    rw [List.chain'_cons']
    constructor
    · intro y hy
      by_cases h2 : min (c + 6) fin + 1 ≤ fin
      · rw [chunks_pos _ _ h2] at hy
        simp at hy
        rw [← hy]
      · rw [chunks_neg _ _ h2] at hy
        simp at hy
    · exact chunks_chain (min (c + 6) fin + 1) fin
  · rw [chunks_neg c fin h]
    exact List.chain'_nil
termination_by (fin + 1 - c).toNat
decreasing_by all_goals omega

theorem chunks_pairwise (c fin : Int) :
    List.Pairwise (fun a b : Int × Int => a.2 < b.1) (chunks c fin) := by
  by_cases h : c ≤ fin
  · rw [chunks_pos c fin h]
    rw [List.pairwise_cons]
    constructor
    · intro w hw
      have := (chunks_mem (min (c + 6) fin + 1) fin w hw).1
      simp only
      omega
    · exact chunks_pairwise (min (c + 6) fin + 1) fin
  · rw [chunks_neg c fin h]
    exact List.Pairwise.nil
termination_by (fin + 1 - c).toNat
decreasing_by all_goals omega

theorem chunks_cover (c fin : Int) (d : Int) (h1 : c ≤ d) (h2 : d ≤ fin) :
    ∃ w ∈ chunks c fin, w.1 ≤ d ∧ d ≤ w.2 := by
  have h : c ≤ fin := le_trans h1 h2
  rw [chunks_pos c fin h]
  by_cases hd : d ≤ min (c + 6) fin
  · exact ⟨(c, min (c + 6) fin), List.mem_cons_self _ _, h1, hd⟩
  · have hd2 : min (c + 6) fin + 1 ≤ d := by omega
    rcases chunks_cover (min (c + 6) fin + 1) fin d hd2 h2 with ⟨w, hw, hwd⟩
    exact ⟨w, List.mem_cons_of_mem _ hw, hwd⟩
termination_by (fin + 1 - c).toNat
decreasing_by all_goals omega

theorem chunks_length (c fin : Int) (h : c ≤ fin) :
    (chunks c fin).length = ((fin - c + 1).toNat + 6) / 7 := by
  rw [chunks_pos c fin h]
  by_cases h2 : min (c + 6) fin + 1 ≤ fin
  · rw [List.length_cons, chunks_length (min (c + 6) fin + 1) fin h2]
    have hm : min (c + 6) fin = c + 6 := by omega
    rw [hm]
    omega
  · rw [chunks_neg _ _ h2]
    simp only [List.length_cons, List.length_nil]
    omega
termination_by (fin + 1 - c).toNat
decreasing_by all_goals omega

theorem chunks_single (s : Int) : chunks s s = [(s, s)] := by
  have hm : min (s + 6) s = s := by omega
  rw [chunks_pos s s (le_refl s), hm, chunks_neg (s + 1) s (by omega)]

/-! ## Properties of the fetch client and the orchestration loops -/

theorem fetch_in_window (oracle : Oracle) (c m : Int) (h : m - c ≤ 6) :
    fetch_generation_data oracle c m = ((oracle c m).mapError Err.remote, true) := by
  unfold fetch_generation_data
  rw [if_neg]
  omega

theorem mapError_remote_ne_wtl (x : Except RemoteErr (List RawRow)) :
    x.mapError Err.remote ≠ .error .windowTooLarge := by
  cases x <;> simp [Except.mapError]

/-- Every window the `fetch_year` loop passes to the fetch client is
within the 6-day limit, and the loop can never end with the
window-too-large error. -/
theorem fetchYearGo_safe (oracle : Oracle) (conn : Conn) (c fin : Int)
    (calls0 : List (Int × Int)) (h0 : ∀ w ∈ calls0, w.2 - w.1 ≤ 6) :
    (∀ w ∈ (fetchYearGo oracle conn c fin calls0).calls, w.2 - w.1 ≤ 6) ∧
    (fetchYearGo oracle conn c fin calls0).status ≠ .error .windowTooLarge := by
  have h0' : ∀ w ∈ calls0 ++ [(c, min (c + 6) fin)], w.2 - w.1 ≤ 6 := by
    intro w hw
    rcases List.mem_append.mp hw with hw | hw
    · exact h0 w hw
    · simp at hw
      subst hw
      simp
      omega
  by_cases h : c ≤ fin
  · rw [fetchYearGo, dif_pos h, fetch_in_window oracle c _ (by omega)]
    cases ho : oracle c (min (c + 6) fin) with
    | error re =>
      simp only [Except.mapError]
      exact ⟨h0', by simp⟩
    | ok data =>
      simp only [Except.mapError]
      by_cases hd : data.isEmpty
      · rw [hd]
        simp only [if_true]
        exact fetchYearGo_safe oracle conn (min (c + 6) fin + 1) fin _ h0'
      · rw [Bool.not_eq_true] at hd
        rw [hd]
        simp only [Bool.false_eq_true, if_false]
        cases hs : store_records conn data with
        | mk conn2 st =>
          cases st with
          | ok u =>
            exact fetchYearGo_safe oracle conn2 (min (c + 6) fin + 1) fin _ h0'
          | error se =>
            exact ⟨h0', by simp⟩
  · rw [fetchYearGo, dif_neg h]
    exact ⟨h0, by simp⟩
termination_by (fin + 1 - c).toNat
decreasing_by all_goals omega

theorem fetchLargeGo_stop (oracle : Oracle) (conn : Conn) (c fin : Int)
    (total : Nat) (warnings : List (Int × Int)) (h : ¬ c ≤ fin) :
    fetchLargeGo oracle conn c fin total warnings = ⟨conn, total, warnings⟩ := by
  rw [fetchLargeGo, dif_neg h]

/-- One failing chunk of the dashboard loop: a warning is recorded for
its window and the loop continues with the next chunk, connection
untouched. -/
theorem fetchLargeGo_step_err (oracle : Oracle) (conn : Conn) (c fin : Int)
    (total : Nat) (warnings : List (Int × Int)) (re : RemoteErr)
    (h : c ≤ fin) (ho : oracle c (min (c + 6) fin) = .error re) :
    fetchLargeGo oracle conn c fin total warnings =
      fetchLargeGo oracle conn (min (c + 6) fin + 1) fin total
        (warnings ++ [(c, min (c + 6) fin)]) := by
  rw [fetchLargeGo, dif_pos h, fetch_in_window oracle c _ (by omega), ho]
  simp [Except.mapError]

/-- One successful chunk of the dashboard loop with a fully binding,
non-empty payload: the records are upserted and committed and the running
total grows by the chunk size. -/
theorem fetchLargeGo_step_ok (oracle : Oracle) (conn : Conn) (c fin : Int)
    (total : Nat) (warnings : List (Int × Int)) (data : List RawRow)
    (h : c ≤ fin) (ho : oracle c (min (c + 6) fin) = .ok data) (hne : data ≠ [])
    (hb : ∀ row ∈ data, (bindRow row).isSome) :
    fetchLargeGo oracle conn c fin total warnings =
      fetchLargeGo oracle
        ⟨upsertAll conn.current (data.filterMap bindRow),
         upsertAll conn.current (data.filterMap bindRow)⟩
        (min (c + 6) fin + 1) fin (total + data.length) warnings := by
  rw [fetchLargeGo, dif_pos h, fetch_in_window oracle c _ (by omega), ho]
  have hd : data.isEmpty = false := by
    cases data with
    | nil => exact absurd rfl hne
    | cons x xs => rfl
  simp only [Except.mapError, hd, Bool.false_eq_true, if_false]
  rw [store_records_ok conn data hb]

/-! ## Concrete sample data for witnesses and counterexamples -/

/-- A well-formed API row (all named parameters present). -/
def rowWind : RawRow :=
  ⟨some "2023-01-02T00:00:00Z", some "Solar generation", some "Wind Onshore",
   some 640, some "2023-01-01T00:00:00Z", some "2023-01-01", some 1⟩

/-- A malformed API row: the `quantity` field is missing, so the
named-parameter binding of `executemany` fails on it. -/
def rowBad : RawRow :=
  ⟨some "2023-01-02T00:00:00Z", some "Solar generation", some "Solar",
   none, some "2023-01-01T00:30:00Z", some "2023-01-01", some 2⟩

/-- The record `rowWind` binds to. -/
def recWind : Record :=
  ⟨"2023-01-02T00:00:00Z", "Solar generation", "Wind Onshore",
   640, "2023-01-01T00:00:00Z", "2023-01-01", 1⟩

/-- Same key as `recWind`, different quantity. -/
def recWind2 : Record :=
  ⟨"2023-01-03T00:00:00Z", "Solar generation", "Wind Onshore",
   650, "2023-01-01T00:00:00Z", "2023-01-01", 1⟩

/-- A record whose `start_time` carries a time-of-day component on
2023-06-01. -/
def recJune : Record :=
  ⟨"2023-06-02T00:00:00Z", "Solar generation", "Wind Onshore",
   100, "2023-06-01T04:30:00Z", "2023-06-01", 10⟩

/-- A remote that always answers with an empty `data` array. -/
def oracleEmpty : Oracle := fun _ _ => .ok []

/-- A remote that always fails at the transport level. -/
def oracleDown : Oracle := fun _ _ => .error .transport

/-! ## C1 -/

theorem store_records_nodup (conn : Conn) (b : List RawRow)
    (h1 : (conn.current.map key).Nodup) (h2 : (conn.committed.map key).Nodup) :
    (((store_records conn b).1.current.map key).Nodup ∧
      ((store_records conn b).1.committed.map key).Nodup) := by
  cases hall : b.all (fun row => (bindRow row).isSome) with
  | true =>
    rw [store_records, execManyGo_eq, hall]
    exact ⟨keys_nodup_upsertAll _ _ h1, keys_nodup_upsertAll _ _ h1⟩
  | false =>
    rw [store_records, execManyGo_eq, hall]
    exact ⟨keys_nodup_upsertAll _ _ h1, h2⟩

theorem runBatches_nodup (bs : List (List RawRow)) : ∀ conn : Conn,
    (conn.current.map key).Nodup → (conn.committed.map key).Nodup →
    ((runBatches conn bs).current.map key).Nodup ∧
      ((runBatches conn bs).committed.map key).Nodup := by
  induction bs with
  | nil => intro conn h1 h2; exact ⟨h1, h2⟩
  | cons b bs ih =>
    intro conn h1 h2
    have hstep := store_records_nodup conn b h1 h2
    exact ih (store_records conn b).1 hstep.1 hstep.2

/-- C1.  Starting from an initialized empty store, no sequence of
store operations ever leaves two rows with the same `(psrType,
startTime)` key — neither in the connection's view nor in the committed
state — and upserting a record whose key already exists with a different
quantity replaces the stored row in full, leaving `[r]` as the rows
carrying that key (last-write-wins). -/
theorem claim1_dedup_key_invariant (bs : List (List RawRow)) (s : List Record)
    (r x : Record) (_hx : x ∈ s) (_hk : key x = key r) (_hq : x.quantity ≠ r.quantity) :
    ((runBatches (initialize_db []) bs).current.map key).Nodup ∧
    ((runBatches (initialize_db []) bs).committed.map key).Nodup ∧
    (upsert s r).filter (fun y => key y == key r) = [r] := by
  have h := runBatches_nodup bs (initialize_db []) (by simp [initialize_db]) (by simp [initialize_db])
  exact ⟨h.1, h.2, upsert_filter_key s r⟩

/-- Witness for C1 at a concrete input. -/
theorem claim1_dedup_key_invariant_witness :
    ((runBatches (initialize_db []) [[rowWind]]).current.map key).Nodup ∧
    ((runBatches (initialize_db []) [[rowWind]]).committed.map key).Nodup ∧
    (upsert [recWind] recWind2).filter (fun y => key y == key recWind2) = [recWind2] :=
  claim1_dedup_key_invariant [[rowWind]] [recWind] recWind2 recWind
    (by decide) (by decide) (by decide)

/-! ## C2 -/

/-- C2.  Upserting the same batch twice in succession leaves the store in
the same observable state, as seen through any `load_dataframe` query, as
upserting it once — for every starting connection, every batch (even one
that fails to bind in full) and every combination of filters. -/
theorem claim2_upsert_idempotent (conn : Conn) (rows : List RawRow)
    (start? end? psr? : Option String) :
    load_dataframe (store_records (store_records conn rows).1 rows).1 start? end? psr? =
      load_dataframe (store_records conn rows).1 start? end? psr? := by
  rw [store_records_fst_idem]

/-! ## C4 -/

/-- C4.  For `start <= end` the chunking loop emits a non-empty window
sequence whose first window starts at `start`, whose last window ends at
`end`, in which each following window starts one day after the previous
one ends (no gaps, no overlaps — the windows are pairwise disjoint), each
window is well-formed and spans at most 7 calendar days inclusive, and
every day of `[start, end]` is covered by some window. -/
theorem claim4_chunker_tiling (s fin : Int) (h : s ≤ fin) :
    chunks s fin ≠ [] ∧
    (chunks s fin).head?.map Prod.fst = some s ∧
    (chunks s fin).getLast?.map Prod.snd = some fin ∧
    List.Chain' (fun a b : Int × Int => b.1 = a.2 + 1) (chunks s fin) ∧
    (∀ w ∈ chunks s fin, w.1 ≤ w.2 ∧ w.2 - w.1 ≤ 6) ∧
    (∀ d : Int, (s ≤ d ∧ d ≤ fin) ↔ ∃ w ∈ chunks s fin, w.1 ≤ d ∧ d ≤ w.2) ∧
    List.Pairwise (fun a b : Int × Int => a.2 < b.1) (chunks s fin) := by
  refine ⟨?_, ?_, chunks_getLast s fin h, chunks_chain s fin, ?_, ?_,
    chunks_pairwise s fin⟩
  · rw [chunks_pos s fin h]; simp
  · rw [chunks_pos s fin h]; simp
  · intro w hw
    have hm := chunks_mem s fin w hw
    exact ⟨hm.2.1, hm.2.2.2⟩
  · intro d
    constructor
    · rintro ⟨hd1, hd2⟩
      exact chunks_cover s fin d hd1 hd2
    · rintro ⟨w, hw, hw1, hw2⟩
      have hm := chunks_mem s fin w hw
      constructor
      · exact le_trans hm.1 hw1
      · exact le_trans hw2 hm.2.2.1

/-- Witness for C4 at a concrete input. -/
theorem claim4_chunker_tiling_witness :
    chunks 0 8 ≠ [] ∧
    (chunks 0 8).head?.map Prod.fst = some 0 ∧
    (chunks 0 8).getLast?.map Prod.snd = some 8 ∧
    List.Chain' (fun a b : Int × Int => b.1 = a.2 + 1) (chunks 0 8) ∧
    (∀ w ∈ chunks 0 8, w.1 ≤ w.2 ∧ w.2 - w.1 ≤ 6) ∧
    (∀ d : Int, (0 ≤ d ∧ d ≤ 8) ↔ ∃ w ∈ chunks 0 8, w.1 ≤ d ∧ d ≤ w.2) ∧
    List.Pairwise (fun a b : Int × Int => a.2 < b.1) (chunks 0 8) :=
  claim4_chunker_tiling 0 8 (by decide)

/-! ## C5 -/

/-- C5.  A window spanning more than 6 days fails immediately with the
window-too-large error and no request is sent to the remote service; for
a window within the limit a request is sent and this error is never the
outcome, whatever the remote answers. -/
theorem claim5_window_guard (oracle : Oracle) (s fin : Int) :
    (fin - s > 6 → fetch_generation_data oracle s fin = (.error .windowTooLarge, false)) ∧
    (fin - s ≤ 6 →
      (fetch_generation_data oracle s fin).2 = true ∧
      (fetch_generation_data oracle s fin).1 ≠ .error .windowTooLarge) := by
  constructor
  · intro h
    unfold fetch_generation_data
    rw [if_pos h]
  · intro h
    rw [fetch_in_window oracle s fin h]
    exact ⟨rfl, mapError_remote_ne_wtl _⟩

/-- Witness for C5 at concrete inputs on both sides of the limit. -/
theorem claim5_window_guard_witness :
    fetch_generation_data oracleEmpty 0 10 = (.error .windowTooLarge, false) ∧
    ((fetch_generation_data oracleEmpty 0 3).2 = true ∧
      (fetch_generation_data oracleEmpty 0 3).1 ≠ .error .windowTooLarge) :=
  ⟨(claim5_window_guard oracleEmpty 0 10).1 (by decide),
   (claim5_window_guard oracleEmpty 0 3).2 (by decide)⟩

/-! ## C8 -/

/-- C8.  For `start <= end` the chunk sequence is finite with exactly
`ceil((end - start + 1) / 7)` windows, and `start == end` yields exactly
one single-day window. -/
theorem claim8_chunk_count (s fin : Int) (h : s ≤ fin) :
    (chunks s fin).length = ((fin - s + 1).toNat + 6) / 7 ∧
    chunks s s = [(s, s)] :=
  ⟨chunks_length s fin h, chunks_single s⟩

/-- Witness for C8 at a concrete input. -/
theorem claim8_chunk_count_witness :
    (chunks 0 8).length = (((8 : Int) - 0 + 1).toNat + 6) / 7 ∧
    chunks 0 0 = [(0, 0)] :=
  claim8_chunk_count 0 8 (by decide)

/-! ## C6 -/

/-- Counterexample for C6 as stated: a two-row batch whose second row
fails to bind.  `store_records` fails, yet the batch's first record is
visible through `load_dataframe` on the connection afterwards — the
observable state is not unchanged on error. -/
theorem claim6_atomicity_counterexample :
    (store_records (initialize_db []) [rowWind, rowBad]).2 = .error .bindError ∧
    load_dataframe (store_records (initialize_db []) [rowWind, rowBad]).1 none none none
      = [⟨"2023-01-01T00:00:00Z", "Wind Onshore", 640⟩] :=
  ⟨rfl, by decide⟩

/-- C6 (amended).  On success the whole batch is applied (later rows of
the batch superseding earlier ones with the same key) and committed; the
operation is not atomic on failure: the rows preceding the failing one
remain applied to the connection's open transaction — visible to
same-connection queries — and only the committed state is unchanged. -/
theorem claim6_batch_not_atomic (conn : Conn) (rows : List RawRow) :
    ((store_records conn rows).2 = .ok () →
      (store_records conn rows).1 =
        ⟨upsertAll conn.current (rows.filterMap bindRow),
         upsertAll conn.current (rows.filterMap bindRow)⟩) ∧
    ((store_records conn rows).2 = .error .bindError →
      (store_records conn rows).1.committed = conn.committed ∧
      (store_records conn rows).1.current =
        upsertAll conn.current
          ((rows.takeWhile fun row => (bindRow row).isSome).filterMap bindRow)) := by
  cases hall : rows.all (fun row => (bindRow row).isSome) with
  | true =>
    have hmem : ∀ row ∈ rows, (bindRow row).isSome := List.all_eq_true.mp hall
    rw [store_records_ok conn rows hmem]
    constructor
    · intro _; rfl
    · intro hcontra; simp at hcontra
  | false =>
    rw [store_records, execManyGo_eq, hall]
    constructor
    · intro hcontra; simp at hcontra
    · intro _; exact ⟨rfl, rfl⟩

/-- Witness for C6 (amended): the success case on a one-row batch and
the failure case on the two-row batch with a non-binding second row. -/
theorem claim6_batch_not_atomic_witness :
    (store_records (initialize_db []) [rowWind]).1 =
      ⟨upsertAll (initialize_db [] : Conn).current ([rowWind].filterMap bindRow),
       upsertAll (initialize_db [] : Conn).current ([rowWind].filterMap bindRow)⟩ ∧
    ((store_records (initialize_db []) [rowWind, rowBad]).1.committed =
        (initialize_db [] : Conn).committed ∧
      (store_records (initialize_db []) [rowWind, rowBad]).1.current =
        upsertAll (initialize_db [] : Conn).current
          (([rowWind, rowBad].takeWhile fun row => (bindRow row).isSome).filterMap bindRow)) :=
  ⟨(claim6_batch_not_atomic (initialize_db []) [rowWind]).1 rfl,
   (claim6_batch_not_atomic (initialize_db []) [rowWind, rowBad]).2 rfl⟩

/-! ## C7 -/

/-- Counterexample for C7 as stated: the supplied end filter `""` is
falsy in Python, so `load_dataframe` adds no clause for it and returns
the stored row even though that row does not satisfy
`startTime <= ""`. -/
theorem claim7_query_filter_counterexample :
    load_dataframe (initialize_db [recWind]) none (some "") none = [proj recWind] ∧
    sqlLe recWind.startTime "" = false := by
  decide

/-- C7 (amended).  For every combination of optional filters whose
supplied values are non-empty strings (Python truthiness treats a
supplied empty string as an absent filter), the query returns exactly the
rows satisfying the inclusive bounds and the exact technology match —
each absent filter leaving its dimension unbounded, per `specWhere` —
projected onto `(startTime, psrType, quantity)` and ordered ascending by
`startTime`; an empty result is an ordinary outcome, not an error. -/
theorem claim7_query_filtering (conn : Conn) (start? end? psr? : Option String)
    (hs : start? ≠ some "") (he : end? ≠ some "") (ht : psr? ≠ some "") :
    List.Sorted qle (load_dataframe conn start? end? psr?) ∧
    (load_dataframe conn start? end? psr?).Perm
      ((conn.current.filter (specWhere start? end? psr?)).map proj) := by
  have hcl : ∀ r ∈ conn.current, whereClause start? end? psr? r = specWhere start? end? psr? r := by
    intro r _
    have hs' : ∀ sv : String, start? = some sv → (sv == "") = false := by
      intro sv hsv
      exact beq_eq_false_iff_ne.mpr (fun hh => hs (by rw [hsv, hh]))
    have he' : ∀ ev : String, end? = some ev → (ev == "") = false := by
      intro ev hev
      exact beq_eq_false_iff_ne.mpr (fun hh => he (by rw [hev, hh]))
    have ht' : ∀ tv : String, psr? = some tv → (tv == "") = false := by
      intro tv htv
      exact beq_eq_false_iff_ne.mpr (fun hh => ht (by rw [htv, hh]))
    cases start? with
    | none =>
      cases end? with
      | none =>
        cases psr? with
        | none => rfl
        | some tv => simp [whereClause, specWhere, ht' tv rfl]
      | some ev =>
        cases psr? with
        | none => simp [whereClause, specWhere, he' ev rfl]
        | some tv => simp [whereClause, specWhere, he' ev rfl, ht' tv rfl]
    | some sv =>
      cases end? with
      | none =>
        cases psr? with
        | none => simp [whereClause, specWhere, hs' sv rfl]
        | some tv => simp [whereClause, specWhere, hs' sv rfl, ht' tv rfl]
      | some ev =>
        cases psr? with
        | none => simp [whereClause, specWhere, hs' sv rfl, he' ev rfl]
        | some tv => simp [whereClause, specWhere, hs' sv rfl, he' ev rfl, ht' tv rfl]
  refine ⟨load_dataframe_sorted conn start? end? psr?, ?_⟩
  have hperm := load_dataframe_perm conn start? end? psr?
  rwa [List.filter_congr hcl] at hperm

/-- Witness for C7 (amended) at a concrete input. -/
theorem claim7_query_filtering_witness :
    List.Sorted qle (load_dataframe (initialize_db [recWind]) (some "2023-01-01") none none) ∧
    (load_dataframe (initialize_db [recWind]) (some "2023-01-01") none none).Perm
      (((initialize_db [recWind] : Conn).current.filter
          (specWhere (some "2023-01-01") none none)).map proj) :=
  claim7_query_filtering (initialize_db [recWind]) (some "2023-01-01") none none
    (by decide) (by decide) (by decide)

/-! ## C10 -/

/-- C10.  The query filters compare `start_time` as TEXT: a row is
returned iff its stored string is lexicographically within the supplied
bounds; consequently a date-only end filter such as `"2023-06-01"`
excludes every stored row whose `startTime` extends that date with a
time-of-day component. -/
theorem claim10_text_comparison (conn : Conn) (S E : String) (q : QueryRow)
    (hS : S ≠ "") (hE : E ≠ "") (r : Record) (_hr : r ∈ conn.current)
    (t : String) (ht : t ≠ "") (hdate : r.startTime = "2023-06-01" ++ t) :
    (q ∈ load_dataframe conn none (some E) none ↔
      ∃ x ∈ conn.current, sqlLe x.startTime E = true ∧ proj x = q) ∧
    (q ∈ load_dataframe conn (some S) none none ↔
      ∃ x ∈ conn.current, sqlLe S x.startTime = true ∧ proj x = q) ∧
    proj r ∉ load_dataframe conn none (some "2023-06-01") none := by
  have hEb : (E == "") = false := beq_eq_false_iff_ne.mpr hE
  have hSb : (S == "") = false := beq_eq_false_iff_ne.mpr hS
  refine ⟨?_, ?_, ?_⟩
  · rw [mem_load_dataframe]
    constructor
    · rintro ⟨x, hx, hcl, hq⟩
      refine ⟨x, hx, ?_, hq⟩
      simp only [whereClause, hEb, Bool.false_or, Bool.and_true, Bool.true_and] at hcl
      exact hcl
    · rintro ⟨x, hx, hle, hq⟩
      exact ⟨x, hx, by simp [whereClause, hEb, hle], hq⟩
  · rw [mem_load_dataframe]
    constructor
    · rintro ⟨x, hx, hcl, hq⟩
      refine ⟨x, hx, ?_, hq⟩
      simp only [whereClause, hSb, Bool.false_or, Bool.and_true, Bool.true_and] at hcl
      exact hcl
    · rintro ⟨x, hx, hle, hq⟩
      exact ⟨x, hx, by simp [whereClause, hSb, hle], hq⟩
  · intro hmem
    rw [mem_load_dataframe] at hmem
    rcases hmem with ⟨x, hx, hcl, hq⟩
    have hb : ("2023-06-01" == "") = false := by decide
    simp only [whereClause, hb, Bool.false_or, Bool.and_true, Bool.true_and] at hcl
    have hxs : x.startTime = r.startTime := congrArg QueryRow.start_time hq
    rw [hxs, hdate] at hcl
    rw [sqlLe_append_false "2023-06-01" t ht] at hcl
    exact Bool.false_ne_true hcl

/-- Witness for C10 at a concrete input. -/
theorem claim10_text_comparison_witness :
    ((proj recJune ∈ load_dataframe (initialize_db [recJune]) none (some "2023-07-01") none ↔
      ∃ x ∈ (initialize_db [recJune] : Conn).current,
        sqlLe x.startTime "2023-07-01" = true ∧ proj x = proj recJune) ∧
    (proj recJune ∈ load_dataframe (initialize_db [recJune]) (some "2023-01-01") none none ↔
      ∃ x ∈ (initialize_db [recJune] : Conn).current,
        sqlLe "2023-01-01" x.startTime = true ∧ proj x = proj recJune) ∧
    proj recJune ∉ load_dataframe (initialize_db [recJune]) none (some "2023-06-01") none) :=
  claim10_text_comparison (initialize_db [recJune]) "2023-01-01" "2023-07-01" (proj recJune)
    (by decide) (by decide) recJune (by decide) "T04:30:00Z" (by decide) (by decide)

/-! ## C3 -/

/-- API row for the year's first chunk. -/
def rowJan1 : RawRow :=
  ⟨some "2023-01-02T00:00:00Z", some "Solar generation", some "Wind Onshore",
   some 100, some "2023-01-01T00:00:00Z", some "2023-01-01", some 1⟩

/-- API row for the year's second chunk. -/
def rowJan8 : RawRow :=
  ⟨some "2023-01-09T00:00:00Z", some "Solar generation", some "Wind Onshore",
   some 200, some "2023-01-08T00:00:00Z", some "2023-01-08", some 1⟩

/-- API row for the year's fourth chunk. -/
def rowJan22 : RawRow :=
  ⟨some "2023-01-23T00:00:00Z", some "Solar generation", some "Wind Onshore",
   some 400, some "2023-01-22T00:00:00Z", some "2023-01-22", some 1⟩

/-- The record `rowJan1` binds to. -/
def recJan1 : Record :=
  ⟨"2023-01-02T00:00:00Z", "Solar generation", "Wind Onshore",
   100, "2023-01-01T00:00:00Z", "2023-01-01", 1⟩

/-- The record `rowJan8` binds to. -/
def recJan8 : Record :=
  ⟨"2023-01-09T00:00:00Z", "Solar generation", "Wind Onshore",
   200, "2023-01-08T00:00:00Z", "2023-01-08", 1⟩

/-- The record `rowJan22` binds to. -/
def recJan22 : Record :=
  ⟨"2023-01-23T00:00:00Z", "Solar generation", "Wind Onshore",
   400, "2023-01-22T00:00:00Z", "2023-01-22", 1⟩

/-- A remote for the 2023 year fetch: chunks one, two and four (windows
starting at day numbers 738520, 738527 and 738541, i.e. 2023-01-01,
2023-01-08 and 2023-01-22) have data, the third chunk (738534,
2023-01-15) fails at the transport level, every later chunk is empty. -/
def oracleJanDown : Oracle := fun a _ =>
  if a = 738534 then .error .transport
  else if a = 738520 then .ok [rowJan1]
  else if a = 738527 then .ok [rowJan8]
  else if a = 738541 then .ok [rowJan22]
  else .ok []

/-- Counterexample for C3 as stated: in the `fetch_year` job for 2023
whose third chunk fails, the orchestrator does not continue — the job
aborts with the chunk's error, and the records of the non-failing fourth
chunk are never upserted (only the first two chunks made it into the
store). -/
theorem claim3_isolation_counterexample :
    (fetch_year oracleJanDown 2023 []).status = .error (.remote .transport) ∧
    recJan1 ∈ (fetch_year oracleJanDown 2023 []).conn.current ∧
    recJan22 ∉ (fetch_year oracleJanDown 2023 []).conn.current := by
  have hrun : fetch_year oracleJanDown 2023 [] =
      ⟨⟨[recJan1, recJan8], [recJan1, recJan8]⟩, .error (.remote .transport),
        [(738520, 738526), (738527, 738533), (738534, 738540)]⟩ := by
    simp [fetch_year, fetchYearGo, fetch_generation_data, Except.mapError, oracleJanDown,
      initialize_db, jan1, dec31, leapsBefore, store_records, execManyGo, bindRow,
      upsert, upsertAll, key, rowJan1, rowJan8, recJan1, recJan8, List.filter] <;> decide
  rw [hrun]
  refine ⟨rfl, by decide, by decide⟩

/-- C3 (amended).  In the dashboard path `fetch_large_date_range`,
failures are isolated per chunk: on a five-chunk job (days 0-34) whose
third chunk fails, the other four chunks still upsert (and commit) their
records, exactly the failed window is recorded — but only as a transient
warning message, while the returned job result reports success with the
total record count and carries no list of failed windows.  The CLI path
`fetch_year` instead aborts at the first failed chunk. -/
theorem claim3_partial_failure_isolated (oracle : Oracle) (db : List Record)
    (d1 d2 d4 d5 : List RawRow) (re : RemoteErr)
    (h1 : oracle 0 6 = .ok d1) (h2 : oracle 7 13 = .ok d2)
    (h3 : oracle 14 20 = .error re)
    (h4 : oracle 21 27 = .ok d4) (h5 : oracle 28 34 = .ok d5)
    (hn1 : d1 ≠ []) (hn2 : d2 ≠ []) (hn4 : d4 ≠ []) (hn5 : d5 ≠ [])
    (hb : ∀ row ∈ d1 ++ d2 ++ d4 ++ d5, (bindRow row).isSome) :
    (fetch_large_date_range oracle 0 34 db).1.conn.current =
      upsertAll (upsertAll (upsertAll (upsertAll db (d1.filterMap bindRow))
        (d2.filterMap bindRow)) (d4.filterMap bindRow)) (d5.filterMap bindRow) ∧
    (fetch_large_date_range oracle 0 34 db).1.conn.committed =
      (fetch_large_date_range oracle 0 34 db).1.conn.current ∧
    (fetch_large_date_range oracle 0 34 db).1.warnings = [(14, 20)] ∧
    (fetch_large_date_range oracle 0 34 db).1.total =
      d1.length + d2.length + d4.length + d5.length ∧
    (fetch_large_date_range oracle 0 34 db).2 =
      (true, d1.length + d2.length + d4.length + d5.length) := by
  have hb1 : ∀ row ∈ d1, (bindRow row).isSome := fun row hrr => hb row (by simp [hrr])
  have hb2 : ∀ row ∈ d2, (bindRow row).isSome := fun row hrr => hb row (by simp [hrr])
  have hb4 : ∀ row ∈ d4, (bindRow row).isSome := fun row hrr => hb row (by simp [hrr])
  have hb5 : ∀ row ∈ d5, (bindRow row).isSome := fun row hrr => hb row (by simp [hrr])
  have hrun : fetchLargeGo oracle (initialize_db db) 0 34 0 [] =
      ⟨⟨upsertAll (upsertAll (upsertAll (upsertAll db (d1.filterMap bindRow))
          (d2.filterMap bindRow)) (d4.filterMap bindRow)) (d5.filterMap bindRow),
        upsertAll (upsertAll (upsertAll (upsertAll db (d1.filterMap bindRow))
          (d2.filterMap bindRow)) (d4.filterMap bindRow)) (d5.filterMap bindRow)⟩,
       d1.length + d2.length + d4.length + d5.length, [(14, 20)]⟩ := by
    have e1 := fetchLargeGo_step_ok oracle (initialize_db db) 0 34 0 [] d1
      (by norm_num) (by simpa using h1) hn1 hb1
    have e2 := fetchLargeGo_step_ok oracle
      ⟨upsertAll db (d1.filterMap bindRow), upsertAll db (d1.filterMap bindRow)⟩
      7 34 d1.length [] d2 (by norm_num) (by simpa using h2) hn2 hb2
    have e3 := fetchLargeGo_step_err oracle
      ⟨upsertAll (upsertAll db (d1.filterMap bindRow)) (d2.filterMap bindRow),
       upsertAll (upsertAll db (d1.filterMap bindRow)) (d2.filterMap bindRow)⟩
      14 34 (d1.length + d2.length) [] re (by norm_num) (by simpa using h3)
    have e4 := fetchLargeGo_step_ok oracle
      ⟨upsertAll (upsertAll db (d1.filterMap bindRow)) (d2.filterMap bindRow),
       upsertAll (upsertAll db (d1.filterMap bindRow)) (d2.filterMap bindRow)⟩
      21 34 (d1.length + d2.length) [(14, 20)] d4 (by norm_num) (by simpa using h4) hn4 hb4
    have e5 := fetchLargeGo_step_ok oracle
      ⟨upsertAll (upsertAll (upsertAll db (d1.filterMap bindRow))
          (d2.filterMap bindRow)) (d4.filterMap bindRow),
       upsertAll (upsertAll (upsertAll db (d1.filterMap bindRow))
          (d2.filterMap bindRow)) (d4.filterMap bindRow)⟩
      28 34 (d1.length + d2.length + d4.length) [(14, 20)] d5
      (by norm_num) (by simpa using h5) hn5 hb5
    have e6 := fetchLargeGo_stop oracle
      ⟨upsertAll (upsertAll (upsertAll (upsertAll db (d1.filterMap bindRow))
          (d2.filterMap bindRow)) (d4.filterMap bindRow)) (d5.filterMap bindRow),
       upsertAll (upsertAll (upsertAll (upsertAll db (d1.filterMap bindRow))
          (d2.filterMap bindRow)) (d4.filterMap bindRow)) (d5.filterMap bindRow)⟩
      35 34 (d1.length + d2.length + d4.length + d5.length) [(14, 20)] (by norm_num)
    simp only [initialize_db] at e1
    norm_num at e1 e2 e3 e4 e5
    rw [show (initialize_db db : Conn) = ⟨db, db⟩ from rfl]
    rw [e1, e2, e3, e4, e5, e6]
  constructor
  · show (fetchLargeGo oracle (initialize_db db) 0 34 0 []).conn.current = _
    rw [hrun]
  constructor
  · show (fetchLargeGo oracle (initialize_db db) 0 34 0 []).conn.committed =
      (fetchLargeGo oracle (initialize_db db) 0 34 0 []).conn.current
    rw [hrun]
  constructor
  · show (fetchLargeGo oracle (initialize_db db) 0 34 0 []).warnings = _
    rw [hrun]
  constructor
  · show (fetchLargeGo oracle (initialize_db db) 0 34 0 []).total = _
    rw [hrun]
  · show (true, (fetchLargeGo oracle (initialize_db db) 0 34 0 []).total) = _
    rw [hrun]

/-- A remote for the five-chunk witness job over days 0-34: chunk three
fails, the others carry one row each. -/
def oracleFive : Oracle := fun a _ =>
  if a = 14 then .error .transport
  else if a = 0 then .ok [rowJan1]
  else if a = 7 then .ok [rowJan8]
  else if a = 21 then .ok [rowJan22]
  else .ok [rowWind]

/-- Witness for C3 (amended) at a concrete five-chunk job. -/
theorem claim3_partial_failure_isolated_witness :
    (fetch_large_date_range oracleFive 0 34 []).1.conn.current =
      upsertAll (upsertAll (upsertAll (upsertAll [] ([rowJan1].filterMap bindRow))
        ([rowJan8].filterMap bindRow)) ([rowJan22].filterMap bindRow))
        ([rowWind].filterMap bindRow) ∧
    (fetch_large_date_range oracleFive 0 34 []).1.conn.committed =
      (fetch_large_date_range oracleFive 0 34 []).1.conn.current ∧
    (fetch_large_date_range oracleFive 0 34 []).1.warnings = [(14, 20)] ∧
    (fetch_large_date_range oracleFive 0 34 []).1.total =
      [rowJan1].length + [rowJan8].length + [rowJan22].length + [rowWind].length ∧
    (fetch_large_date_range oracleFive 0 34 []).2 =
      (true, [rowJan1].length + [rowJan8].length + [rowJan22].length + [rowWind].length) :=
  claim3_partial_failure_isolated oracleFive [] [rowJan1] [rowJan8] [rowJan22] [rowWind]
    .transport rfl rfl rfl rfl rfl (by decide) (by decide) (by decide) (by decide)
    (by decide)

/-! ## C9 -/

/-- C9.  Every window `fetch_year` passes to the fetch client satisfies
`end - start <= 6` days, and consequently the window-too-large branch of
the fetch client is unreachable from `fetch_year`: whatever the remote
does, the job never ends with that error. -/
theorem claim9_window_limit_respected (oracle : Oracle) (year : Int) (db : List Record) :
    (∀ w ∈ (fetch_year oracle year db).calls, w.2 - w.1 ≤ 6) ∧
    (fetch_year oracle year db).status ≠ .error .windowTooLarge :=
  fetchYearGo_safe oracle (initialize_db db) (jan1 year) (dec31 year) []
    (by intro w hw; simp at hw)

/-- Witness for C9: the first window of the 2023 job against a dead
remote is within the limit. -/
theorem claim9_window_limit_respected_witness :
    ((738526 : Int) - 738520 ≤ 6) ∧
    (fetch_year oracleDown 2023 []).status ≠ .error .windowTooLarge := by
  have hrun : fetch_year oracleDown 2023 [] =
      ⟨⟨[], []⟩, .error (.remote .transport), [(738520, 738526)]⟩ := by
    simp [fetch_year, fetchYearGo, fetch_generation_data, oracleDown, initialize_db,
      jan1, dec31, leapsBefore, Except.mapError]
  refine ⟨?_, (claim9_window_limit_respected oracleDown 2023 []).2⟩
  have hmem : (738520, 738526) ∈ (fetch_year oracleDown 2023 []).calls := by
    rw [hrun]
    simp
  exact (claim9_window_limit_respected oracleDown 2023 []).1 (738520, 738526) hmem
